import Mathlib

/-!
# GoChatRPC: the ChatService state machine

A shallow embedding of `server.go`: the in-memory registry of users, the
append-only message log and the four RPC operations `Join`, `Send`,
`GetUpdates` and `Leave`, together with the name-resolution helper
`uniqueName`.

Modelling conventions.

* Go's `int` message IDs and cursors are `Int`.  The counter `nextID` only
  ever grows by one per appended message, so it cannot come near the machine
  bound before the log itself holds that many messages.
* `time.Time` values are represented by their `UnixNano` reading, an `Int`.
  Every call of `time.Now()` is a separate input of the operation.
* `map[string]*User` is a finite map with unique keys (`AList`).  Every
  pointer stored in the map is allocated by `Join` for that entry alone, so
  writing through the pointer is an update of that entry.
* An RPC method receives a pointer to a reply value and returns an `error`.
  The embedding takes the reply as an argument and returns the service state,
  the reply and the error (`none` for `nil`) after the call.
* Output written with `fmt.Printf` is not part of the state and is left out.
* Go strings are compared and concatenated only; they are `String` here.
-/

namespace GoChatRPC

/-- Reading of the clock, as `UnixNano`. -/
abbrev Time := Int

/-- A chat message (`type Message struct`). -/
structure Message where
  ID : Int
  Sender : String
  Content : String
  Time : Time
  deriving DecidableEq

/-- A joined user (`type User struct`). -/
structure User where
  ID : String
  LastSeen : Int
  Joined : Time
  Original : String
  deriving DecidableEq

/-- The shared service state (`type ChatService struct`, without the mutex). -/
structure ChatService where
  users : AList (fun _ : String => User)
  history : List Message
  nextID : Int
  nameMap : AList (fun _ : String => Int)

/-- Constructor `NewChatService`. -/
def NewChatService : ChatService :=
  { users := ∅, history := [], nextID := 1, nameMap := ∅ }

structure JoinArgs where
  RequestedName : String

structure JoinReply where
  Success : Bool
  AssignedName : String
  Message : String
  deriving DecidableEq

structure SendArgs where
  ID : String
  Message : String

structure SendReply where
  Success : Bool
  deriving DecidableEq

structure UpdateArgs where
  ID : String
  LastMsgID : Int

structure UpdateReply where
  Messages : List Message
  NewMsgID : Int
  deriving DecidableEq

/-- Argument of `Leave` (`struct{ ID string }`). -/
structure LeaveArgs where
  ID : String

/-- What a call leaves behind: the service state, the reply value and the
returned `error` (`none` is `nil`). -/
structure Outcome (ρ : Type) where
  cs : ChatService
  reply : ρ
  err : Option String

/-- The loop `for i := 1; i < 100; i++` of `uniqueName`, started at counter
`i` with `n` iterations left: the first candidate `base ++ i` that is not a
key of `users`, if any. -/
def uniqueNameLoop (cs : ChatService) (base : String) : Nat → Nat → Option String
  | _, 0 => none
  | i, n + 1 =>
    let candidate := base ++ toString i
    if cs.users.lookup candidate = none then some candidate
    else uniqueNameLoop cs base (i + 1) n

/-- Method `uniqueName`; `now` is the reading `time.Now().UnixNano()` used by
the fallback. -/
def uniqueName (cs : ChatService) (base : String) (now : Int) : String :=
  let base := if base = "" then "Guest" else base
  if cs.users.lookup base = none then base
  else
    match uniqueNameLoop cs base 1 99 with
    | some candidate => candidate
    | none => base ++ "_" ++ toString (Int.tmod now 9999)

/-- Method `Join`.  `nowName`, `nowJoined` and `nowMsg` are the three clock
readings, in the order the code takes them. -/
def Join (cs : ChatService) (args : JoinArgs) (reply : JoinReply)
    (nowName nowJoined nowMsg : Time) : Outcome JoinReply :=
  let name := uniqueName cs args.RequestedName nowName
  let users := cs.users.insert name
    { ID := name, LastSeen := cs.nextID - 1, Joined := nowJoined, Original := args.RequestedName }
  let sysMsg : Message :=
    { ID := cs.nextID, Sender := "System",
      Content := "User " ++ name ++ " joined the chat", Time := nowMsg }
  { cs := { cs with users := users, nextID := cs.nextID + 1, history := cs.history ++ [sysMsg] }
    reply := { reply with Success := true, AssignedName := name,
                          Message := "Welcome, " ++ name ++ "!" }
    err := none }

/-- Method `Send`; `now` is the clock reading stored in the message. -/
def Send (cs : ChatService) (args : SendArgs) (reply : SendReply) (now : Time) :
    Outcome SendReply :=
  match cs.users.lookup args.ID with
  | none => { cs := cs, reply := reply, err := some "user not found" }
  | some user =>
    let msg : Message :=
      { ID := cs.nextID, Sender := args.ID, Content := args.Message, Time := now }
    { cs := { cs with nextID := cs.nextID + 1, history := cs.history ++ [msg],
                      users := cs.users.insert args.ID { user with LastSeen := msg.ID } }
      reply := { reply with Success := true }
      err := none }

/-- The body of the loop of `GetUpdates`: one message `m` of the history,
with the accumulator `(newMessages, maxID)`. -/
def scanStep (args : UpdateArgs) (acc : List Message × Int) (m : Message) :
    List Message × Int :=
  if m.ID > args.LastMsgID ∧ m.Sender ≠ args.ID then (acc.1 ++ [m], m.ID) else acc

/-- Method `GetUpdates`.  It takes the read lock only and writes no field of
the service, so the state it returns is the state it was given. -/
def GetUpdates (cs : ChatService) (args : UpdateArgs) (reply : UpdateReply) :
    Outcome UpdateReply :=
  match cs.users.lookup args.ID with
  | none => { cs := cs, reply := reply, err := some "unknown user" }
  | some _ =>
    let scan := cs.history.foldl (scanStep args) ([], args.LastMsgID)
    { cs := cs, reply := { reply with Messages := scan.1, NewMsgID := scan.2 }, err := none }

/-- Method `Leave`; `now` is the clock reading stored in the notice. -/
def Leave (cs : ChatService) (args : LeaveArgs) (reply : JoinReply) (now : Time) :
    Outcome JoinReply :=
  match cs.users.lookup args.ID with
  | none => { cs := cs, reply := reply, err := none }
  | some _ =>
    let leaveMsg : Message :=
      { ID := cs.nextID, Sender := "System",
        Content := "User " ++ args.ID ++ " left the chat", Time := now }
    { cs := { cs with users := cs.users.erase args.ID, nextID := cs.nextID + 1,
                      history := cs.history ++ [leaveMsg] }
      reply := { reply with Success := true, Message := "Left chat successfully" }
      err := none }

/-! ## Runs of the service -/

/-- One completed call of an RPC method, with any arguments, any reply value
handed in and any clock readings: the state before and the state after. -/
inductive Step : ChatService → ChatService → Prop
  | join (cs : ChatService) (args : JoinArgs) (reply : JoinReply) (nowName nowJoined nowMsg : Time) :
      Step cs (Join cs args reply nowName nowJoined nowMsg).cs
  | send (cs : ChatService) (args : SendArgs) (reply : SendReply) (now : Time) :
      Step cs (Send cs args reply now).cs
  | getUpdates (cs : ChatService) (args : UpdateArgs) (reply : UpdateReply) :
      Step cs (GetUpdates cs args reply).cs
  | leave (cs : ChatService) (args : LeaveArgs) (reply : JoinReply) (now : Time) :
      Step cs (Leave cs args reply now).cs

/-- Any finite sequence of calls leading from the first state to the second. -/
inductive Steps : ChatService → ChatService → Prop
  | refl (cs : ChatService) : Steps cs cs
  | tail {a b c : ChatService} : Steps a b → Step b c → Steps a c

/-- States reachable from `NewChatService`. -/
def Reachable (cs : ChatService) : Prop := Steps NewChatService cs

/-- The selection test of the loop of `GetUpdates`, as a Boolean. -/
def selected (args : UpdateArgs) (m : Message) : Bool :=
  decide (m.ID > args.LastMsgID ∧ m.Sender ≠ args.ID)

/-- ID of the last message of a list, or `d` for the empty list. -/
def lastIDOr : List Message → Int → Int
  | [], d => d
  | m :: ms, _ => lastIDOr ms m.ID

/-- The numbering invariant of the log: the IDs are `1, 2, ..., length` in
order and `nextID` is the next number. -/
def Numbered (cs : ChatService) : Prop :=
  cs.history.map Message.ID = (List.range cs.history.length).map (fun i : Nat => (i : Int) + 1)
    ∧ cs.nextID = cs.history.length + 1

/-! ## Scenario states -/

/-- Zero value of `JoinReply`, as the RPC layer allocates it for a call. -/
def JoinReply.zero : JoinReply := { Success := false, AssignedName := "", Message := "" }

/-- Zero value of `SendReply`. -/
def SendReply.zero : SendReply := { Success := false }

/-- Zero value of `UpdateReply`. -/
def UpdateReply.zero : UpdateReply := { Messages := [], NewMsgID := 0 }

/-- Scenario state: `Join("A")`. -/
def chatA : ChatService := (Join NewChatService ⟨"A"⟩ JoinReply.zero 10 11 12).cs

/-- Scenario state: `Join("A")`, `Send("A", "hi")`. -/
def chatSolo : ChatService := (Send chatA ⟨"A", "hi"⟩ SendReply.zero 30).cs

/-- Scenario state: `Join("A")`, `Join("B")`. -/
def chatJoined : ChatService := (Join chatA ⟨"B"⟩ JoinReply.zero 20 21 22).cs

/-- Scenario state: `Join("A")`, `Join("B")`, `Send("A", "hi")`. -/
def chatAB : ChatService := (Send chatJoined ⟨"A", "hi"⟩ SendReply.zero 30).cs

/-- Scenario state: `chatAB` followed by `Send("A", "yo")`. -/
def chatAB2 : ChatService := (Send chatAB ⟨"A", "yo"⟩ SendReply.zero 40).cs

/-- The base name `uniqueName` works with: the request, or `"Guest"` for the
empty request. -/
def baseName (requested : String) : String :=
  if requested = "" then "Guest" else requested

/-- The name `uniqueName` falls back to after the loop. -/
def fallbackName (base : String) (now : Int) : String :=
  base ++ "_" ++ toString (Int.tmod now 9999)

/-- A run of `Join` calls, one per requested name, all at clock reading 0. -/
def joinAll (requests : List String) (cs : ChatService) : ChatService :=
  requests.foldl (fun s r => (Join s ⟨r⟩ JoinReply.zero 0 0 0).cs) cs

/-- The requests `"G"`, `"G1"`, ..., `"G99"`. -/
def crowdNames : List String :=
  "G" :: (List.range' 1 99).map (fun i => "G" ++ toString i)

/-- Scenario state: one hundred users `"G"`, `"G1"`, ..., `"G99"`. -/
def chatCrowd : ChatService := joinAll crowdNames NewChatService

/-- Scenario state: `chatCrowd` followed by `Join("G_123")`. -/
def chatCrowd2 : ChatService := (Join chatCrowd ⟨"G_123"⟩ JoinReply.zero 0 0 0).cs

/-- Scenario state: `Join("")`. -/
def chatGuest : ChatService := (Join NewChatService ⟨""⟩ JoinReply.zero 10 11 12).cs

/-! ## Runs that avoid a name, and the origin of messages -/

/-- One completed call that does not hand out the name `u`: any `Send`,
`GetUpdates` or `Leave`, or a `Join` whose assigned name is not `u`. -/
inductive StepAvoiding (u : String) : ChatService → ChatService → Prop
  | join (cs : ChatService) (args : JoinArgs) (reply : JoinReply) (nowName nowJoined nowMsg : Time) :
      (Join cs args reply nowName nowJoined nowMsg).reply.AssignedName ≠ u →
      StepAvoiding u cs (Join cs args reply nowName nowJoined nowMsg).cs
  | send (cs : ChatService) (args : SendArgs) (reply : SendReply) (now : Time) :
      StepAvoiding u cs (Send cs args reply now).cs
  | getUpdates (cs : ChatService) (args : UpdateArgs) (reply : UpdateReply) :
      StepAvoiding u cs (GetUpdates cs args reply).cs
  | leave (cs : ChatService) (args : LeaveArgs) (reply : JoinReply) (now : Time) :
      StepAvoiding u cs (Leave cs args reply now).cs

/-- Any finite sequence of calls in which no `Join` is assigned the name `u`. -/
inductive RunAvoiding (u : String) : ChatService → ChatService → Prop
  | refl (cs : ChatService) : RunAvoiding u cs cs
  | tail {a b c : ChatService} : RunAvoiding u a b → StepAvoiding u b c → RunAvoiding u a c

/-- Which kind of call appended a message of the log. -/
inductive Origin where
  | notice
  | sent
  deriving DecidableEq

/-- Runs from `NewChatService` in which no `Join` is assigned the name `u`,
together with the origin of every message of the log, in log order. -/
inductive Traced (u : String) : ChatService → List Origin → Prop
  | init : Traced u NewChatService []
  | join {cs : ChatService} {os : List Origin} (args : JoinArgs) (reply : JoinReply)
      (nowName nowJoined nowMsg : Time) :
      Traced u cs os →
      (Join cs args reply nowName nowJoined nowMsg).reply.AssignedName ≠ u →
      Traced u (Join cs args reply nowName nowJoined nowMsg).cs (os ++ [Origin.notice])
  | sendJoined {cs : ChatService} {os : List Origin} (args : SendArgs) (reply : SendReply)
      (now : Time) :
      Traced u cs os → args.ID ∈ cs.users →
      Traced u (Send cs args reply now).cs (os ++ [Origin.sent])
  | sendUnknown {cs : ChatService} {os : List Origin} (args : SendArgs) (reply : SendReply)
      (now : Time) :
      Traced u cs os → args.ID ∉ cs.users → Traced u (Send cs args reply now).cs os
  | getUpdates {cs : ChatService} {os : List Origin} (args : UpdateArgs) (reply : UpdateReply) :
      Traced u cs os → Traced u (GetUpdates cs args reply).cs os
  | leaveJoined {cs : ChatService} {os : List Origin} (args : LeaveArgs) (reply : JoinReply)
      (now : Time) :
      Traced u cs os → args.ID ∈ cs.users →
      Traced u (Leave cs args reply now).cs (os ++ [Origin.notice])
  | leaveUnknown {cs : ChatService} {os : List Origin} (args : LeaveArgs) (reply : JoinReply)
      (now : Time) :
      Traced u cs os → args.ID ∉ cs.users → Traced u (Leave cs args reply now).cs os

/-! ## Further scenario states -/

/-- Scenario state: `Join("A")`, `Leave("A")`. -/
def chatLeft : ChatService := (Leave chatA ⟨"A"⟩ JoinReply.zero 40).cs

/-- Scenario state: `Join("A")`, `Join("B")`, `Leave("A")`. -/
def chatBOnly : ChatService := (Leave chatJoined ⟨"A"⟩ JoinReply.zero 40).cs

/-- Scenario state: `Join("System")`. -/
def chatSystem : ChatService := (Join NewChatService ⟨"System"⟩ JoinReply.zero 10 11 12).cs

/-- Scenario state: `Join("System")`, `Send("System", "hello")`. -/
def chatSystemSent : ChatService := (Send chatSystem ⟨"System", "hello"⟩ SendReply.zero 30).cs

/-! ## The scan of `GetUpdates` -/

theorem foldl_scanStep (args : UpdateArgs) (l : List Message) (acc : List Message × Int) :
    l.foldl (scanStep args) acc
      = (acc.1 ++ l.filter (selected args), lastIDOr (l.filter (selected args)) acc.2) := by
  induction l generalizing acc with
  | nil => simp [lastIDOr]
  | cons m l ih =>
    rw [List.foldl_cons, ih]
    by_cases h : m.ID > args.LastMsgID ∧ m.Sender ≠ args.ID
    · have hs : selected args m = true := by simp [selected, h]
      simp [scanStep, h, hs, lastIDOr]
    · have hs : selected args m = false := by simp [selected, h]
      simp [scanStep, h, hs]

theorem lastIDOr_of_ne_nil (l : List Message) (d : Int) (h : l ≠ []) :
    lastIDOr l d = (l.getLast h).ID := by
  induction l generalizing d with
  | nil => exact absurd rfl h
  | cons m ms ih =>
    cases ms with
    | nil => simp [lastIDOr]
    | cons m2 ms2 =>
      have := ih m.ID (by simp)
      simp only [lastIDOr] at this ⊢
      rw [this]
      simp

theorem getUpdates_of_mem (cs : ChatService) (args : UpdateArgs) (reply : UpdateReply)
    (h : args.ID ∈ cs.users) :
    GetUpdates cs args reply =
      { cs := cs
        reply := { Messages := cs.history.filter (selected args)
                   NewMsgID := lastIDOr (cs.history.filter (selected args)) args.LastMsgID }
        err := none } := by
  have hl := AList.lookup_isSome.mpr h
  unfold GetUpdates
  cases hu : cs.users.lookup args.ID with
  | none => simp [hu] at hl
  | some u => simp [foldl_scanStep]

theorem getUpdates_of_not_mem (cs : ChatService) (args : UpdateArgs) (reply : UpdateReply)
    (h : args.ID ∉ cs.users) :
    GetUpdates cs args reply = { cs := cs, reply := reply, err := some "unknown user" } := by
  have hl := AList.lookup_eq_none.mpr h
  simp [GetUpdates, hl]

/-! ## The numbering of the log -/

/-- Effect of a call on the log: it is left alone, or one message carrying the
old `nextID` is appended and `nextID` grows by one. -/
theorem step_log_effect {a b : ChatService} (h : Step a b) :
    (b.history = a.history ∧ b.nextID = a.nextID) ∨
      ∃ m : Message, b.history = a.history ++ [m] ∧ m.ID = a.nextID ∧ b.nextID = a.nextID + 1 := by
  cases h with
  | join args reply t1 t2 t3 => exact Or.inr ⟨_, rfl, rfl, rfl⟩
  | send args reply now =>
    unfold Send
    cases a.users.lookup args.ID with
    | none => exact Or.inl ⟨rfl, rfl⟩
    | some u => exact Or.inr ⟨_, rfl, rfl, rfl⟩
  | getUpdates args reply =>
    unfold GetUpdates
    cases a.users.lookup args.ID with
    | none => exact Or.inl ⟨rfl, rfl⟩
    | some u => exact Or.inl ⟨rfl, rfl⟩
  | leave args reply now =>
    unfold Leave
    cases a.users.lookup args.ID with
    | none => exact Or.inl ⟨rfl, rfl⟩
    | some u => exact Or.inr ⟨_, rfl, rfl, rfl⟩

theorem numbered_new : Numbered NewChatService := by
  simp [Numbered, NewChatService]

theorem step_numbered {a b : ChatService} (h : Step a b) (ha : Numbered a) : Numbered b := by
  rcases step_log_effect h with ⟨hh, hn⟩ | ⟨m, hh, hm, hn⟩
  · simpa [Numbered, hh, hn] using ha
  · obtain ⟨h1, h2⟩ := ha
    refine ⟨?_, ?_⟩
    · rw [hh, List.map_append, List.length_append, List.length_singleton, List.range_succ,
        List.map_append, h1]
      simp [hm, h2]
    · rw [hn, h2, hh]; simp

theorem steps_numbered {a b : ChatService} (h : Steps a b) (ha : Numbered a) : Numbered b := by
  induction h with
  | refl => exact ha
  | tail _ hs ih => exact step_numbered hs ih

theorem reachable_numbered {cs : ChatService} (h : Reachable cs) : Numbered cs :=
  steps_numbered h numbered_new

theorem steps_trans {a b c : ChatService} (h1 : Steps a b) (h2 : Steps b c) : Steps a c := by
  induction h2 with
  | refl => exact h1
  | tail _ hs ih => exact Steps.tail ih hs

/-- Along any sequence of calls the old log stays a prefix of the new one. -/
theorem steps_log_prefix {a b : ChatService} (h : Steps a b) :
    ∃ added : List Message, b.history = a.history ++ added := by
  induction h with
  | refl => exact ⟨[], by simp⟩
  | tail _ hs ih =>
    obtain ⟨added, ha⟩ := ih
    rcases step_log_effect hs with ⟨hh, _⟩ | ⟨m, hh, _, _⟩
    · exact ⟨added, by rw [hh, ha]⟩
    · exact ⟨added ++ [m], by rw [hh, ha, List.append_assoc]⟩

theorem numbered_id_at {cs : ChatService} (h : Numbered cs) (i : Nat) (m : Message)
    (hm : cs.history[i]? = some m) : m.ID = (i : Int) + 1 := by
  have h1 := congrArg (fun l => l[i]?) h.1
  simp only [List.getElem?_map, hm, Option.map_some'] at h1
  have hi : i < cs.history.length := by
    by_contra hc
    have := List.getElem?_eq_none (Nat.le_of_not_lt hc)
    rw [this] at hm; cases hm
  rw [List.getElem?_range hi] at h1
  simpa using h1

theorem numbered_pairwise {cs : ChatService} (h : Numbered cs) :
    cs.history.Pairwise (fun m1 m2 => m1.ID < m2.ID) := by
  have hp : (cs.history.map Message.ID).Pairwise (· < ·) := by
    rw [h.1]
    exact (List.pairwise_lt_range _).map _ (fun a b hab => by
      show (a : Int) + 1 < (b : Int) + 1
      omega)
  exact List.pairwise_map.mp hp

theorem numbered_id_bounds {cs : ChatService} (h : Numbered cs) (m : Message)
    (hm : m ∈ cs.history) : 1 ≤ m.ID ∧ m.ID < cs.nextID := by
  obtain ⟨i, hi⟩ := List.mem_iff_getElem?.mp hm
  have hid := numbered_id_at h i m hi
  have hlt : i < cs.history.length := by
    by_contra hc
    have := List.getElem?_eq_none (Nat.le_of_not_lt hc)
    rw [this] at hi; cases hi
  rw [h.2, hid]
  omega

/-- In a list sorted strictly by ID, the last element has the largest ID. -/
theorem le_getLast_of_pairwise (l : List Message)
    (hp : l.Pairwise (fun m1 m2 => m1.ID < m2.ID)) (hne : l ≠ []) (m : Message) (hm : m ∈ l) :
    m.ID ≤ (l.getLast hne).ID := by
  have hsplit := List.dropLast_append_getLast hne
  rw [← hsplit] at hp hm
  rcases List.mem_append.mp hm with h1 | h1
  · have := (List.pairwise_append.mp hp).2.2 m h1 (l.getLast hne) (by simp)
    omega
  · simp at h1
    rw [h1]

/-! ## Polling: selection and cursor -/

theorem reachable_chatA : Reachable chatA := Steps.tail (Steps.refl _) (Step.join _ _ _ _ _ _)
theorem reachable_chatSolo : Reachable chatSolo := Steps.tail reachable_chatA (Step.send _ _ _ _)
theorem reachable_chatJoined : Reachable chatJoined := Steps.tail reachable_chatA (Step.join _ _ _ _ _ _)
theorem reachable_chatAB : Reachable chatAB := Steps.tail reachable_chatJoined (Step.send _ _ _ _)

theorem selected_iff (U : String) (c : Int) (m : Message) :
    selected ⟨U, c⟩ m = true ↔ m.ID > c ∧ m.Sender ≠ U := by
  simp [selected]

/-- C1: for a joined user `U` and any cursor `c`, `GetUpdates` succeeds and
returns exactly the messages of the history with ID greater than `c` and
sender other than `U`, in history order; it never returns a message authored
by `U`. -/
theorem getUpdates_selects_newer_from_others (cs : ChatService) (U : String) (c : Int)
    (reply : UpdateReply) (hU : U ∈ cs.users) :
    (GetUpdates cs ⟨U, c⟩ reply).err = none ∧
    (GetUpdates cs ⟨U, c⟩ reply).reply.Messages
        = cs.history.filter (fun m => decide (m.ID > c) && decide (m.Sender ≠ U)) ∧
    (∀ m, m ∈ (GetUpdates cs ⟨U, c⟩ reply).reply.Messages
        ↔ m ∈ cs.history ∧ m.ID > c ∧ m.Sender ≠ U) ∧
    (GetUpdates cs ⟨U, c⟩ reply).reply.Messages.Sublist cs.history ∧
    (∀ m ∈ (GetUpdates cs ⟨U, c⟩ reply).reply.Messages, m.Sender ≠ U) := by
  rw [getUpdates_of_mem cs ⟨U, c⟩ reply hU]
  refine ⟨rfl, ?_, ?_, ?_, ?_⟩
  · apply List.filter_congr
    intro m _
    simp [selected]
  · intro m
    simp only [List.mem_filter, selected_iff]
  · exact List.filter_sublist _
  · intro m hm
    exact ((selected_iff U c m).mp (List.mem_filter.mp hm).2).2

/-- Witness of C1, the scenario of the claim: after `Join("A")`, `Join("B")`,
`Send("A", "hi")`, the poll `GetUpdates("B", 0)` returns the two join notices
followed by the message of `A`. -/
theorem getUpdates_selects_newer_from_others_witness :
    "B" ∈ chatAB.users ∧
    (GetUpdates chatAB ⟨"B", 0⟩ UpdateReply.zero).err = none ∧
    (GetUpdates chatAB ⟨"B", 0⟩ UpdateReply.zero).reply.Messages
        = chatAB.history.filter (fun m => decide (m.ID > 0) && decide (m.Sender ≠ "B")) ∧
    (GetUpdates chatAB ⟨"B", 0⟩ UpdateReply.zero).reply.Messages
        = [ { ID := 1, Sender := "System", Content := "User A joined the chat", Time := 12 },
            { ID := 2, Sender := "System", Content := "User B joined the chat", Time := 22 },
            { ID := 3, Sender := "A", Content := "hi", Time := 30 } ] :=
  have h := getUpdates_selects_newer_from_others chatAB "B" 0 UpdateReply.zero (by decide)
  ⟨by decide, h.1, h.2.1, by decide⟩

/-- Counterexample to C2 as stated: after `Join("A")`, `Send("A", "hi")` the
history holds the IDs 1 and 2, so the highest ID greater than the cursor 0 is
2 (the message of `A`), yet `GetUpdates("A", 0)` returns the cursor 1. -/
theorem getUpdates_cursor_skips_self_counterexample :
    Reachable chatSolo ∧ "A" ∈ chatSolo.users ∧
    (∃ m ∈ chatSolo.history, m.ID > 0 ∧ m.Sender = "A" ∧ m.ID = 2) ∧
    (∀ m ∈ chatSolo.history, m.ID ≤ 2) ∧
    (GetUpdates chatSolo ⟨"A", 0⟩ UpdateReply.zero).reply.NewMsgID = 1 ∧
    (GetUpdates chatSolo ⟨"A", 0⟩ UpdateReply.zero).reply.NewMsgID ≠ 2 :=
  ⟨reachable_chatSolo, by decide, by decide, by decide, by decide, by decide⟩

/-- C2 (amended): in a reachable state, for a joined user `U` and a cursor `c`,
the new cursor is `c` when no message with ID greater than `c` has a sender
other than `U`; otherwise it is the highest ID among the messages with ID
greater than `c` whose sender is not `U`.  Messages authored by `U` are not
counted. -/
theorem getUpdates_cursor_is_highest_returned (cs : ChatService) (U : String) (c : Int)
    (reply : UpdateReply) (hr : Reachable cs) (hU : U ∈ cs.users) :
    ((∀ m ∈ cs.history, m.ID > c → m.Sender = U) →
        (GetUpdates cs ⟨U, c⟩ reply).reply.NewMsgID = c) ∧
    ((∃ m ∈ cs.history, m.ID > c ∧ m.Sender ≠ U) →
        (∃ m ∈ cs.history, m.ID > c ∧ m.Sender ≠ U ∧
            m.ID = (GetUpdates cs ⟨U, c⟩ reply).reply.NewMsgID) ∧
        (∀ m ∈ cs.history, m.ID > c → m.Sender ≠ U →
            m.ID ≤ (GetUpdates cs ⟨U, c⟩ reply).reply.NewMsgID)) := by
  rw [getUpdates_of_mem cs ⟨U, c⟩ reply hU]
  constructor
  · intro hnone
    have hnil : cs.history.filter (selected ⟨U, c⟩) = [] := by
      rw [List.filter_eq_nil_iff]
      intro m hm hsel
      have := (selected_iff U c m).mp hsel
      exact this.2 (hnone m hm this.1)
    simp [hnil, lastIDOr]
  · rintro ⟨m0, hm0, hgt0, hne0⟩
    have hmem0 : m0 ∈ cs.history.filter (selected ⟨U, c⟩) :=
      List.mem_filter.mpr ⟨hm0, (selected_iff U c m0).mpr ⟨hgt0, hne0⟩⟩
    have hnn : cs.history.filter (selected ⟨U, c⟩) ≠ [] := List.ne_nil_of_mem hmem0
    have hlast := lastIDOr_of_ne_nil _ c hnn
    have hpw : (cs.history.filter (selected ⟨U, c⟩)).Pairwise (fun m1 m2 => m1.ID < m2.ID) :=
      (numbered_pairwise (reachable_numbered hr)).filter _
    have hin := List.mem_filter.mp (List.getLast_mem hnn)
    have hsel := (selected_iff U c _).mp hin.2
    refine ⟨⟨_, hin.1, hsel.1, hsel.2, hlast.symm⟩, ?_⟩
    intro m hm hgt hne
    show m.ID ≤ lastIDOr _ _
    rw [hlast]
    exact le_getLast_of_pairwise _ hpw hnn m
      (List.mem_filter.mpr ⟨hm, (selected_iff U c m).mpr ⟨hgt, hne⟩⟩)

/-- Witness of C2 (amended): after `Join("A")`, `Send("A", "hi")` the poll
`GetUpdates("A", 0)` returns the cursor 1, the ID of the join notice, and not
the ID 2 of the own message of `A`. -/
theorem getUpdates_cursor_is_highest_returned_witness :
    Reachable chatSolo ∧ "A" ∈ chatSolo.users ∧
    (∃ m ∈ chatSolo.history, m.ID > 0 ∧ m.Sender ≠ "A") ∧
    (∃ m ∈ chatSolo.history, m.ID > 0 ∧ m.Sender ≠ "A" ∧
        m.ID = (GetUpdates chatSolo ⟨"A", 0⟩ UpdateReply.zero).reply.NewMsgID) ∧
    (∀ m ∈ chatSolo.history, m.ID > 0 → m.Sender ≠ "A" →
        m.ID ≤ (GetUpdates chatSolo ⟨"A", 0⟩ UpdateReply.zero).reply.NewMsgID) :=
  have h := getUpdates_cursor_is_highest_returned chatSolo "A" 0 UpdateReply.zero
    reachable_chatSolo (by decide)
  ⟨reachable_chatSolo, by decide, by decide, (h.2 (by decide)).1, (h.2 (by decide)).2⟩

theorem reachable_chatAB2 : Reachable chatAB2 := Steps.tail reachable_chatAB (Step.send _ _ _ _)

theorem steps_chatAB_chatAB2 : Steps chatAB chatAB2 :=
  Steps.tail (Steps.refl _) (Step.send _ _ _ _)

/-- The cursor returned by a poll of a numbered log is the input cursor or the
ID of a logged message, so it stays below `nextID` when the input does. -/
theorem lastIDOr_filter_lt {cs : ChatService} (hn : Numbered cs) (args : UpdateArgs)
    (h : args.LastMsgID < cs.nextID) :
    lastIDOr (cs.history.filter (selected args)) args.LastMsgID < cs.nextID := by
  by_cases hnil : cs.history.filter (selected args) = []
  · simpa [hnil, lastIDOr] using h
  · rw [lastIDOr_of_ne_nil _ _ hnil]
    exact (numbered_id_bounds hn _ (List.mem_filter.mp (List.getLast_mem hnil)).1).2

/-- Messages appended to a numbered log carry IDs from the old `nextID` on. -/
theorem appended_id_ge {s s2 : ChatService} (hs : Numbered s) (hs2 : Numbered s2)
    (added : List Message) (happ : s2.history = s.history ++ added) (m : Message)
    (hm : m ∈ added) : s.nextID ≤ m.ID := by
  obtain ⟨j, hj⟩ := List.mem_iff_getElem?.mp hm
  have hidx : s2.history[s.history.length + j]? = some m := by
    rw [happ, List.getElem?_append_right (Nat.le_add_right _ _)]
    simpa using hj
  have := numbered_id_at hs2 _ m hidx
  rw [this, hs.2]
  push_cast
  omega

/-- C3: polling twice, the second time with the cursor returned by the first
poll and after any further calls, delivers no message ID twice, loses no
message of another sender that was in the log at the first poll, and (when
the first cursor is below `nextID`) delivers every message appended in between
by another sender. -/
theorem getUpdates_twice_no_duplicate_no_loss (s s2 : ChatService) (U : String) (c0 : Int)
    (reply1 reply2 : UpdateReply) (hs : Reachable s) (hstep : Steps s s2)
    (hU : U ∈ s.users) (hU2 : U ∈ s2.users) :
    (GetUpdates s ⟨U, c0⟩ reply1).err = none ∧
    (GetUpdates s2 ⟨U, (GetUpdates s ⟨U, c0⟩ reply1).reply.NewMsgID⟩ reply2).err = none ∧
    (∀ m1 ∈ (GetUpdates s ⟨U, c0⟩ reply1).reply.Messages,
      ∀ m2 ∈ (GetUpdates s2 ⟨U, (GetUpdates s ⟨U, c0⟩ reply1).reply.NewMsgID⟩
                reply2).reply.Messages,
        m1.ID ≠ m2.ID) ∧
    (∀ m ∈ s.history, m.ID > c0 → m.Sender ≠ U →
        m ∈ (GetUpdates s ⟨U, c0⟩ reply1).reply.Messages) ∧
    s.history <+: s2.history ∧
    (c0 < s.nextID → ∀ m ∈ s2.history.drop s.history.length, m.Sender ≠ U →
        m ∈ (GetUpdates s2 ⟨U, (GetUpdates s ⟨U, c0⟩ reply1).reply.NewMsgID⟩
                reply2).reply.Messages) := by
  have hn := reachable_numbered hs
  have hn2 : Numbered s2 := steps_numbered hstep hn
  obtain ⟨added, happ⟩ := steps_log_prefix hstep
  rw [getUpdates_of_mem s ⟨U, c0⟩ reply1 hU]
  rw [getUpdates_of_mem s2 ⟨U, _⟩ reply2 hU2]
  refine ⟨rfl, rfl, ?_, ?_, ⟨added, happ.symm⟩, ?_⟩
  · intro m1 hm1 m2 hm2
    have hnn : s.history.filter (selected ⟨U, c0⟩) ≠ [] := List.ne_nil_of_mem hm1
    have hpw : (s.history.filter (selected ⟨U, c0⟩)).Pairwise (fun a b => a.ID < b.ID) :=
      (numbered_pairwise hn).filter _
    have hle := le_getLast_of_pairwise _ hpw hnn m1 hm1
    have hgt := ((selected_iff U _ m2).mp (List.mem_filter.mp hm2).2).1
    have hlast := lastIDOr_of_ne_nil _ c0 hnn
    simp only at hgt hlast
    omega
  · intro m hm hgt hne
    exact List.mem_filter.mpr ⟨hm, (selected_iff U c0 m).mpr ⟨hgt, hne⟩⟩
  · intro hc m hm hne
    have hdrop : s2.history.drop s.history.length = added := by
      rw [happ, List.drop_left]
    rw [hdrop] at hm
    have hge := appended_id_ge hn hn2 added happ m hm
    have hlt := lastIDOr_filter_lt hn ⟨U, c0⟩ hc
    refine List.mem_filter.mpr ⟨?_, (selected_iff U _ m).mpr ⟨?_, hne⟩⟩
    · rw [happ]; exact List.mem_append_right _ hm
    · simp only at hlt ⊢
      omega

/-- Witness of C3: `B` polls at cursor 0 after `A` has said "hi", `A` says
"yo", and `B` polls again with the returned cursor. -/
theorem getUpdates_twice_no_duplicate_no_loss_witness :
    Reachable chatAB ∧ Steps chatAB chatAB2 ∧ "B" ∈ chatAB.users ∧ "B" ∈ chatAB2.users ∧
    (∀ m1 ∈ (GetUpdates chatAB ⟨"B", 0⟩ UpdateReply.zero).reply.Messages,
      ∀ m2 ∈ (GetUpdates chatAB2
                ⟨"B", (GetUpdates chatAB ⟨"B", 0⟩ UpdateReply.zero).reply.NewMsgID⟩
                UpdateReply.zero).reply.Messages,
        m1.ID ≠ m2.ID) ∧
    (0 : Int) < chatAB.nextID ∧
    (∀ m ∈ chatAB2.history.drop chatAB.history.length, m.Sender ≠ "B" →
        m ∈ (GetUpdates chatAB2
                ⟨"B", (GetUpdates chatAB ⟨"B", 0⟩ UpdateReply.zero).reply.NewMsgID⟩
                UpdateReply.zero).reply.Messages) ∧
    (GetUpdates chatAB2
        ⟨"B", (GetUpdates chatAB ⟨"B", 0⟩ UpdateReply.zero).reply.NewMsgID⟩
        UpdateReply.zero).reply.Messages
      = [ { ID := 4, Sender := "A", Content := "yo", Time := 40 } ] :=
  have h := getUpdates_twice_no_duplicate_no_loss chatAB chatAB2 "B" 0 UpdateReply.zero
    UpdateReply.zero reachable_chatAB steps_chatAB_chatAB2 (by decide) (by decide)
  ⟨reachable_chatAB, steps_chatAB_chatAB2, by decide, by decide, h.2.2.1, by decide,
    h.2.2.2.2.2 (by decide), by decide⟩

/-- C4: in every reachable state the message at position `i` of the history
(counting from 0) has ID `i + 1`, the IDs increase strictly along the history
and are pairwise distinct, and `nextID` is the length of the history plus 1. -/
theorem history_ids_consecutive_from_one (cs : ChatService) (h : Reachable cs) :
    (∀ (i : Nat) (m : Message), cs.history[i]? = some m → m.ID = (i : Int) + 1) ∧
    cs.history.Pairwise (fun m1 m2 => m1.ID < m2.ID) ∧
    (cs.history.map Message.ID).Nodup ∧
    cs.nextID = (cs.history.length : Int) + 1 := by
  have hn := reachable_numbered h
  refine ⟨numbered_id_at hn, numbered_pairwise hn, ?_, hn.2⟩
  rw [List.Nodup, List.pairwise_map]
  exact (numbered_pairwise hn).imp (fun hlt => ne_of_lt hlt)

/-- Witness of C4: the state after `Join("A")`, `Join("B")`, `Send("A", "hi")`
holds the IDs 1, 2, 3 and `nextID` 4. -/
theorem history_ids_consecutive_from_one_witness :
    Reachable chatAB ∧
    (∀ (i : Nat) (m : Message), chatAB.history[i]? = some m → m.ID = (i : Int) + 1) ∧
    chatAB.history.map Message.ID = [1, 2, 3] ∧
    chatAB.nextID = 4 :=
  ⟨reachable_chatAB, (history_ids_consecutive_from_one chatAB reachable_chatAB).1,
    by decide, by decide⟩

/-! ## Name resolution -/

theorem uniqueNameLoop_none (cs : ChatService) (base : String) (i n : Nat)
    (h : ∀ j, i ≤ j → j < i + n → base ++ toString j ∈ cs.users) :
    uniqueNameLoop cs base i n = none := by
  induction n generalizing i with
  | zero => rfl
  | succ n ih =>
    have hi : cs.users.lookup (base ++ toString i) ≠ none := by
      rw [Ne, AList.lookup_eq_none, not_not]
      exact h i (Nat.le_refl _) (by omega)
    simp only [uniqueNameLoop, hi, if_false]
    exact ih (i + 1) (fun j h1 h2 => h j (by omega) (by omega))

theorem uniqueNameLoop_first (cs : ChatService) (base : String) (i n k : Nat)
    (hik : i ≤ k) (hkn : k < i + n) (hfree : base ++ toString k ∉ cs.users)
    (hheld : ∀ j, i ≤ j → j < k → base ++ toString j ∈ cs.users) :
    uniqueNameLoop cs base i n = some (base ++ toString k) := by
  induction n generalizing i with
  | zero => omega
  | succ n ih =>
    by_cases hk : i = k
    · subst hk
      have hi : cs.users.lookup (base ++ toString i) = none := AList.lookup_eq_none.mpr hfree
      simp [uniqueNameLoop, hi]
    · have hi : cs.users.lookup (base ++ toString i) ≠ none := by
        rw [Ne, AList.lookup_eq_none, not_not]
        exact hheld i (Nat.le_refl _) (by omega)
      simp only [uniqueNameLoop, hi, if_false]
      exact ih (i + 1) (by omega) (by omega) (fun j h1 h2 => hheld j (by omega) h2)

/-- A name found by the loop is not a key of `users`. -/
theorem uniqueNameLoop_fresh (cs : ChatService) (base : String) (i n : Nat) (x : String)
    (h : uniqueNameLoop cs base i n = some x) : x ∉ cs.users := by
  induction n generalizing i with
  | zero => simp [uniqueNameLoop] at h
  | succ n ih =>
    by_cases hi : cs.users.lookup (base ++ toString i) = none
    · simp only [uniqueNameLoop, hi, if_true, Option.some.injEq] at h
      rw [← h]
      exact AList.lookup_eq_none.mp hi
    · simp only [uniqueNameLoop, hi, if_false] at h
      exact ih (i + 1) h

/-- When the loop finds nothing, every candidate it tried is a key of `users`. -/
theorem uniqueNameLoop_held (cs : ChatService) (base : String) (i n : Nat)
    (h : uniqueNameLoop cs base i n = none) :
    ∀ j, i ≤ j → j < i + n → base ++ toString j ∈ cs.users := by
  induction n generalizing i with
  | zero => intro j h1 h2; omega
  | succ n ih =>
    intro j h1 h2
    by_cases hi : cs.users.lookup (base ++ toString i) = none
    · simp [uniqueNameLoop, hi] at h
    · simp only [uniqueNameLoop, hi, if_false] at h
      by_cases hji : j = i
      · subst hji
        rw [AList.lookup_eq_none, not_not] at hi
        exact hi
      · exact ih (i + 1) h j (by omega) (by omega)

theorem uniqueName_of_free (cs : ChatService) (requested : String) (now : Int)
    (h : baseName requested ∉ cs.users) :
    uniqueName cs requested now = baseName requested := by
  have hl := AList.lookup_eq_none.mpr h
  unfold baseName at hl
  simp [uniqueName, baseName, hl]

theorem uniqueName_of_suffix (cs : ChatService) (requested : String) (now : Int) (n : Nat)
    (hb : baseName requested ∈ cs.users) (h1 : 1 ≤ n) (h99 : n ≤ 99)
    (hfree : baseName requested ++ toString n ∉ cs.users)
    (hheld : ∀ k, 1 ≤ k → k < n → baseName requested ++ toString k ∈ cs.users) :
    uniqueName cs requested now = baseName requested ++ toString n := by
  have hl : cs.users.lookup (baseName requested) ≠ none := by
    rw [Ne, AList.lookup_eq_none, not_not]; exact hb
  have hloop := uniqueNameLoop_first cs (baseName requested) 1 99 n h1 (by omega) hfree hheld
  unfold baseName at hl hloop
  simp [uniqueName, baseName, hl, hloop]

theorem uniqueName_fallback (cs : ChatService) (requested : String) (now : Int)
    (hb : baseName requested ∈ cs.users)
    (hheld : ∀ n, 1 ≤ n → n ≤ 99 → baseName requested ++ toString n ∈ cs.users) :
    uniqueName cs requested now = fallbackName (baseName requested) now := by
  have hl : cs.users.lookup (baseName requested) ≠ none := by
    rw [Ne, AList.lookup_eq_none, not_not]; exact hb
  have hloop := uniqueNameLoop_none cs (baseName requested) 1 99
    (fun j h1 h2 => hheld j h1 (by omega))
  unfold baseName at hl hloop
  simp [uniqueName, baseName, fallbackName, hl, hloop]

/-- Whenever the base name or one of the ninety-nine numbered candidates is
free, the name returned by `uniqueName` is not a key of `users`. -/
theorem uniqueName_fresh (cs : ChatService) (requested : String) (now : Int)
    (h : baseName requested ∉ cs.users ∨
      ∃ n, 1 ≤ n ∧ n ≤ 99 ∧ baseName requested ++ toString n ∉ cs.users) :
    uniqueName cs requested now ∉ cs.users := by
  by_cases hb : baseName requested ∈ cs.users
  · rcases h with h | ⟨n, h1, h99, hn⟩
    · exact absurd hb h
    · cases hloop : uniqueNameLoop cs (baseName requested) 1 99 with
      | none =>
        exfalso
        have hall := uniqueNameLoop_held cs (baseName requested) 1 99 hloop
        exact hn (hall n h1 (by omega))
      | some x =>
        have hl : cs.users.lookup (baseName requested) ≠ none := by
          rw [Ne, AList.lookup_eq_none, not_not]; exact hb
        have hx := uniqueNameLoop_fresh cs _ 1 99 x hloop
        unfold baseName at hl hloop
        simpa [uniqueName, baseName, hl, hloop] using hx
  · rw [uniqueName_of_free cs requested now hb]
    exact hb

theorem reachable_joinAll (requests : List String) (cs : ChatService) (h : Reachable cs) :
    Reachable (joinAll requests cs) := by
  induction requests generalizing cs with
  | nil => exact h
  | cons r rs ih => exact ih _ (Steps.tail h (Step.join _ _ _ _ _ _))

theorem reachable_chatCrowd : Reachable chatCrowd :=
  reachable_joinAll _ _ (Steps.refl _)

theorem reachable_chatCrowd2 : Reachable chatCrowd2 :=
  Steps.tail reachable_chatCrowd (Step.join _ _ _ _ _ _)

theorem join_assignedName (cs : ChatService) (args : JoinArgs) (reply : JoinReply)
    (nowName nowJoined nowMsg : Time) :
    (Join cs args reply nowName nowJoined nowMsg).reply.AssignedName
      = uniqueName cs args.RequestedName nowName := rfl

theorem baseName_G : baseName "G" = "G" := by decide

set_option maxRecDepth 100000 in
/-- The registry of `chatCrowd`: `"G"` and `"G1"`, ..., `"G99"` are held,
`"G100"` is not. -/
theorem chatCrowd_registry :
    baseName "G" ∈ chatCrowd.users ∧
    (∀ n : Nat, 1 ≤ n → n ≤ 99 → baseName "G" ++ toString n ∈ chatCrowd.users) ∧
    "G" ++ toString 100 ∉ chatCrowd.users ∧
    baseName "G_123" ∉ chatCrowd.users := by
  decide!

/-- C6: with `b` the requested name, or `"Guest"` for the empty request:
if `b` is free, `Join` assigns `b`; if `b` is held and `n` is the smallest
number between 1 and 99 with `b ++ n` free, `Join` assigns `b ++ n`. -/
theorem join_assigns_base_or_least_free_suffix (cs : ChatService) (args : JoinArgs)
    (reply : JoinReply) (nowName nowJoined nowMsg : Time) :
    (baseName args.RequestedName ∉ cs.users →
      (Join cs args reply nowName nowJoined nowMsg).reply.AssignedName
        = baseName args.RequestedName) ∧
    (∀ n : Nat, 1 ≤ n → n ≤ 99 → baseName args.RequestedName ∈ cs.users →
      baseName args.RequestedName ++ toString n ∉ cs.users →
      (∀ k : Nat, 1 ≤ k → k < n → baseName args.RequestedName ++ toString k ∈ cs.users) →
      (Join cs args reply nowName nowJoined nowMsg).reply.AssignedName
        = baseName args.RequestedName ++ toString n) :=
  ⟨fun h => uniqueName_of_free cs _ nowName h,
   fun n h1 h99 hb hfree hheld => uniqueName_of_suffix cs _ nowName n hb h1 h99 hfree hheld⟩

/-- Witness of C6, the scenario of the claim: from the initial state `Join("")`
assigns `"Guest"`, and a second `Join("")` assigns `"Guest1"`. -/
theorem join_assigns_base_or_least_free_suffix_witness :
    baseName "" = "Guest" ∧
    baseName "" ∉ NewChatService.users ∧
    (Join NewChatService ⟨""⟩ JoinReply.zero 10 11 12).reply.AssignedName = "Guest" ∧
    baseName "" ∈ chatGuest.users ∧
    baseName "" ++ toString 1 ∉ chatGuest.users ∧
    (Join chatGuest ⟨""⟩ JoinReply.zero 20 21 22).reply.AssignedName = "Guest1" :=
  ⟨by decide, by decide,
   ((join_assigns_base_or_least_free_suffix NewChatService ⟨""⟩ JoinReply.zero 10 11 12).1
      (by decide)).trans (by decide),
   by decide, by decide,
   ((join_assigns_base_or_least_free_suffix chatGuest ⟨""⟩ JoinReply.zero 20 21 22).2 1
      (by decide) (by decide) (by decide) (by decide) (fun k h1 h2 => by omega)).trans
      (by decide)⟩

/-- Counterexample to C7 as stated: in the reachable state with `"G"`, `"G1"`,
..., `"G99"` held and `"G100"` free, `Join("G")` at clock reading 5 assigns
`"G_5"`, not `"G100"`. -/
theorem join_tries_suffix_100_counterexample :
    Reachable chatCrowd ∧
    "G" ∈ chatCrowd.users ∧
    (∀ n, 1 ≤ n → n ≤ 99 → "G" ++ toString n ∈ chatCrowd.users) ∧
    "G" ++ toString 100 ∉ chatCrowd.users ∧
    (Join chatCrowd ⟨"G"⟩ JoinReply.zero 5 6 7).reply.AssignedName = "G_5" ∧
    (Join chatCrowd ⟨"G"⟩ JoinReply.zero 5 6 7).reply.AssignedName ≠ "G" ++ toString 100 := by
  have hreg := chatCrowd_registry
  have hfall := uniqueName_fallback chatCrowd "G" 5 hreg.1 hreg.2.1
  rw [baseName_G] at hreg hfall
  have hname : (Join chatCrowd ⟨"G"⟩ JoinReply.zero 5 6 7).reply.AssignedName = "G_5" := by
    rw [join_assignedName, hfall]
    decide
  refine ⟨reachable_chatCrowd, hreg.1, hreg.2.1, hreg.2.2.1, hname, ?_⟩
  rw [hname]
  decide

/-- C7 (amended): the loop tries the suffixes 1 through 99 only.  When the base
name `b` and `b1`, ..., `b99` are all held, `Join` assigns `b`, an underscore
and the decimal value of the clock reading modulo 9999, whether or not `b100`
is held. -/
theorem join_falls_back_after_suffix_99 (cs : ChatService) (args : JoinArgs)
    (reply : JoinReply) (nowName nowJoined nowMsg : Time)
    (hb : baseName args.RequestedName ∈ cs.users)
    (hheld : ∀ n : Nat, 1 ≤ n → n ≤ 99 →
      baseName args.RequestedName ++ toString n ∈ cs.users) :
    (Join cs args reply nowName nowJoined nowMsg).reply.AssignedName
      = baseName args.RequestedName ++ "_" ++ toString (Int.tmod nowName 9999) :=
  uniqueName_fallback cs _ nowName hb hheld

/-- Witness of C7 (amended): the hundred users `"G"`, `"G1"`, ..., `"G99"` and
a `Join("G")` at clock reading 10004. -/
theorem join_falls_back_after_suffix_99_witness :
    baseName "G" ∈ chatCrowd.users ∧
    (∀ n : Nat, 1 ≤ n → n ≤ 99 → baseName "G" ++ toString n ∈ chatCrowd.users) ∧
    (Join chatCrowd ⟨"G"⟩ JoinReply.zero 10004 6 7).reply.AssignedName
      = baseName "G" ++ "_" ++ toString (Int.tmod 10004 9999) ∧
    baseName "G" ++ "_" ++ toString (Int.tmod 10004 9999) = "G_5" :=
  ⟨chatCrowd_registry.1, chatCrowd_registry.2.1,
   join_falls_back_after_suffix_99 chatCrowd ⟨"G"⟩ JoinReply.zero 10004 6 7
     chatCrowd_registry.1 chatCrowd_registry.2.1,
   by decide⟩

theorem join_users (cs : ChatService) (args : JoinArgs) (reply : JoinReply)
    (nowName nowJoined nowMsg : Time) :
    (Join cs args reply nowName nowJoined nowMsg).cs.users
      = cs.users.insert (uniqueName cs args.RequestedName nowName)
          { ID := uniqueName cs args.RequestedName nowName, LastSeen := cs.nextID - 1,
            Joined := nowJoined, Original := args.RequestedName } := rfl

/-- Inserting under a key that is already present keeps the number of keys. -/
theorem keys_length_insert_of_mem (users : AList (fun _ : String => User)) (k : String)
    (u : User) (h : k ∈ users) : (users.insert k u).keys.length = users.keys.length := by
  have hk : k ∈ users.keys := AList.mem_keys.mp h
  rw [AList.keys_insert, List.length_cons, List.length_erase_of_mem hk]
  have := List.length_pos_of_mem hk
  omega

/-- Inserting under a key that is not present adds one key. -/
theorem keys_length_insert_of_not_mem (users : AList (fun _ : String => User)) (k : String)
    (u : User) (h : k ∉ users) : (users.insert k u).keys.length = users.keys.length + 1 := by
  have hk : k ∉ users.keys := fun hc => h (AList.mem_keys.mpr hc)
  rw [AList.keys_insert, List.length_cons, List.erase_of_not_mem hk]

/-- Whenever the base name or one of its ninety-nine numbered candidates is
free, `Join` registers a name that no joined user holds, keeps every existing
record and adds one user. -/
theorem join_fresh_of_free_candidate (cs : ChatService) (args : JoinArgs) (reply : JoinReply)
    (nowName nowJoined nowMsg : Time)
    (h : baseName args.RequestedName ∉ cs.users ∨
      ∃ n, 1 ≤ n ∧ n ≤ 99 ∧ baseName args.RequestedName ++ toString n ∉ cs.users) :
    (Join cs args reply nowName nowJoined nowMsg).reply.AssignedName ∉ cs.users ∧
    (∀ k, k ∈ cs.users →
      (Join cs args reply nowName nowJoined nowMsg).cs.users.lookup k = cs.users.lookup k) ∧
    (Join cs args reply nowName nowJoined nowMsg).cs.users.keys.length
      = cs.users.keys.length + 1 := by
  have hfresh := uniqueName_fresh cs args.RequestedName nowName h
  refine ⟨hfresh, ?_, ?_⟩
  · intro k hk
    rw [join_users]
    exact AList.lookup_insert_ne (fun hc => hfresh (hc ▸ hk))
  · rw [join_users]
    exact keys_length_insert_of_not_mem _ _ _ hfresh

/-- C5, the failing input: one hundred users `"G"`, `"G1"`, ..., `"G99"` and a
user `"G_123"` are joined (a reachable state), and `Join("G")` is called when
the clock reading modulo 9999 is 123.  The fallback of `uniqueName` then
returns `"G_123"`, a name that is held: the number of joined users stays the
same and the record of the user `"G_123"` is replaced. -/
theorem join_fallback_replaces_joined_user :
    Reachable chatCrowd2 ∧
    "G_123" ∈ chatCrowd2.users ∧
    (chatCrowd2.users.lookup "G_123").map User.Original = some "G_123" ∧
    (Join chatCrowd2 ⟨"G"⟩ JoinReply.zero 123 124 125).reply.AssignedName = "G_123" ∧
    (Join chatCrowd2 ⟨"G"⟩ JoinReply.zero 123 124 125).cs.users.keys.length
      = chatCrowd2.users.keys.length ∧
    ((Join chatCrowd2 ⟨"G"⟩ JoinReply.zero 123 124 125).cs.users.lookup "G_123").map
      User.Original = some "G" := by
  have hreg := chatCrowd_registry
  have hname2 : uniqueName chatCrowd "G_123" 0 = "G_123" :=
    (uniqueName_of_free chatCrowd "G_123" 0 hreg.2.2.2).trans (by decide)
  have husers2 := join_users chatCrowd ⟨"G_123"⟩ JoinReply.zero 0 0 0
  rw [hname2] at husers2
  have hmem : "G_123" ∈ chatCrowd2.users := by
    show "G_123" ∈ (Join chatCrowd ⟨"G_123"⟩ JoinReply.zero 0 0 0).cs.users
    rw [husers2]
    exact (AList.mem_insert _).mpr (Or.inl rfl)
  have hkeep : ∀ k, k ∈ chatCrowd.users → k ∈ chatCrowd2.users := by
    intro k hk
    show k ∈ (Join chatCrowd ⟨"G_123"⟩ JoinReply.zero 0 0 0).cs.users
    rw [husers2]
    exact (AList.mem_insert _).mpr (Or.inr hk)
  have hname : uniqueName chatCrowd2 "G" 123 = "G_123" :=
    (uniqueName_fallback chatCrowd2 "G" 123 (hkeep _ hreg.1)
      (fun n h1 h99 => hkeep _ (hreg.2.1 n h1 h99))).trans (by decide)
  have husers := join_users chatCrowd2 ⟨"G"⟩ JoinReply.zero 123 124 125
  rw [hname] at husers
  refine ⟨reachable_chatCrowd2, hmem, ?_, ?_, ?_, ?_⟩
  · show ((Join chatCrowd ⟨"G_123"⟩ JoinReply.zero 0 0 0).cs.users.lookup "G_123").map
      User.Original = some "G_123"
    rw [husers2, AList.lookup_insert]
    rfl
  · rw [join_assignedName]
    exact hname
  · rw [husers]
    exact keys_length_insert_of_mem _ _ _ hmem
  · rw [husers, AList.lookup_insert]
    rfl

/-! ## Send and Join -/

theorem send_of_not_mem (cs : ChatService) (args : SendArgs) (reply : SendReply) (now : Time)
    (h : args.ID ∉ cs.users) :
    Send cs args reply now = { cs := cs, reply := reply, err := some "user not found" } := by
  have hl := AList.lookup_eq_none.mpr h
  simp [Send, hl]

theorem send_of_lookup (cs : ChatService) (args : SendArgs) (reply : SendReply) (now : Time)
    (u : User) (h : cs.users.lookup args.ID = some u) :
    Send cs args reply now =
      { cs := { cs with
                  nextID := cs.nextID + 1
                  history := cs.history ++
                    [{ ID := cs.nextID, Sender := args.ID, Content := args.Message, Time := now }]
                  users := cs.users.insert args.ID { u with LastSeen := cs.nextID } }
        reply := { reply with Success := true }
        err := none } := by
  simp [Send, h]

/-- C8: `Send` for a user ID that is not joined returns the error
"user not found" and leaves the whole service state (users with every
`LastSeen`, history, `nextID`) and the reply as they were; `Send` returns an
error in no other case. -/
theorem send_unknown_user_fails_without_effect (cs : ChatService) (args : SendArgs)
    (reply : SendReply) (now : Time) :
    (args.ID ∉ cs.users →
      (Send cs args reply now).err = some "user not found" ∧
      (Send cs args reply now).cs = cs ∧
      (Send cs args reply now).cs.users = cs.users ∧
      (Send cs args reply now).cs.history = cs.history ∧
      (Send cs args reply now).cs.nextID = cs.nextID ∧
      (Send cs args reply now).reply = reply) ∧
    ((Send cs args reply now).err ≠ none → args.ID ∉ cs.users) := by
  constructor
  · intro h
    rw [send_of_not_mem cs args reply now h]
    exact ⟨rfl, rfl, rfl, rfl, rfl, rfl⟩
  · intro herr hmem
    obtain ⟨u, hu⟩ := Option.isSome_iff_exists.mp (AList.lookup_isSome.mpr hmem)
    rw [send_of_lookup cs args reply now u hu] at herr
    exact herr rfl

/-- Witness of C8: in the state after `Join("A")`, `Send` for the unknown ID
`"Z"` fails and the state is the one before. -/
theorem send_unknown_user_fails_without_effect_witness :
    "Z" ∉ chatA.users ∧
    (Send chatA ⟨"Z", "hello"⟩ SendReply.zero 30).err = some "user not found" ∧
    (Send chatA ⟨"Z", "hello"⟩ SendReply.zero 30).cs = chatA :=
  have h := (send_unknown_user_fails_without_effect chatA ⟨"Z", "hello"⟩ SendReply.zero 30).1
    (by decide)
  ⟨by decide, h.1, h.2.1⟩

/-- C9: `Send` by a joined user, with any content, succeeds with
`Success = true`, appends exactly one message with the old `nextID`, the user
as sender and the given content, increases `nextID` by one, sets that user's
`LastSeen` to the new ID and changes nothing else in the registry. -/
theorem send_appends_message_and_marks_sender (cs : ChatService) (args : SendArgs)
    (reply : SendReply) (now : Time) (h : args.ID ∈ cs.users) :
    (Send cs args reply now).err = none ∧
    (Send cs args reply now).reply.Success = true ∧
    (Send cs args reply now).cs.history = cs.history ++
      [{ ID := cs.nextID, Sender := args.ID, Content := args.Message, Time := now }] ∧
    (Send cs args reply now).cs.nextID = cs.nextID + 1 ∧
    (∃ u, cs.users.lookup args.ID = some u ∧
      (Send cs args reply now).cs.users.lookup args.ID
        = some { u with LastSeen := cs.nextID }) ∧
    (∀ k, k ∈ (Send cs args reply now).cs.users ↔ k ∈ cs.users) ∧
    (∀ k, k ≠ args.ID →
      (Send cs args reply now).cs.users.lookup k = cs.users.lookup k) := by
  obtain ⟨u, hu⟩ := Option.isSome_iff_exists.mp (AList.lookup_isSome.mpr h)
  rw [send_of_lookup cs args reply now u hu]
  refine ⟨rfl, rfl, rfl, rfl, ⟨u, hu, AList.lookup_insert _⟩, ?_, ?_⟩
  · intro k
    rw [AList.mem_insert]
    constructor
    · rintro (hk | hk)
      · rw [hk]; exact h
      · exact hk
    · exact Or.inr
  · intro k hk
    exact AList.lookup_insert_ne hk

/-- Witness of C9: `A` sends the empty message and a message of blanks after
`Join("A")`, `Join("B")`. -/
theorem send_appends_message_and_marks_sender_witness :
    "A" ∈ chatJoined.users ∧
    (Send chatJoined ⟨"A", ""⟩ SendReply.zero 30).err = none ∧
    (Send chatJoined ⟨"A", ""⟩ SendReply.zero 30).reply.Success = true ∧
    (Send chatJoined ⟨"A", ""⟩ SendReply.zero 30).cs.history = chatJoined.history ++
      [{ ID := chatJoined.nextID, Sender := "A", Content := "", Time := 30 }] ∧
    (Send chatJoined ⟨"A", "   "⟩ SendReply.zero 30).cs.history = chatJoined.history ++
      [{ ID := 3, Sender := "A", Content := "   ", Time := 30 }] ∧
    (Send chatJoined ⟨"A", ""⟩ SendReply.zero 30).cs.users.lookup "A"
      = some { ID := "A", LastSeen := 3, Joined := 11, Original := "A" } ∧
    (Send chatJoined ⟨"A", ""⟩ SendReply.zero 30).cs.users.lookup "B"
      = some { ID := "B", LastSeen := 1, Joined := 21, Original := "B" } :=
  have h := send_appends_message_and_marks_sender chatJoined ⟨"A", ""⟩ SendReply.zero 30
    (by decide)
  have h2 := send_appends_message_and_marks_sender chatJoined ⟨"A", "   "⟩ SendReply.zero 30
    (by decide)
  ⟨by decide, h.1, h.2.1, h.2.2.1, h2.2.2.1.trans (by decide), by decide, by decide⟩

/-- C10: `Join` with any requested name returns no error and a reply with
`Success = true`, the resolved name `n` and the text "Welcome, n!"; afterwards
`n` is joined with a record of ID `n` and the requested name as `Original`,
exactly one message (sender "System", the old `nextID`, content
"User n joined the chat") has been appended and `nextID` has grown by one. -/
theorem join_registers_and_announces (cs : ChatService) (args : JoinArgs) (reply : JoinReply)
    (nowName nowJoined nowMsg : Time) :
    (Join cs args reply nowName nowJoined nowMsg).err = none ∧
    (Join cs args reply nowName nowJoined nowMsg).reply.Success = true ∧
    (Join cs args reply nowName nowJoined nowMsg).reply.AssignedName
      = uniqueName cs args.RequestedName nowName ∧
    (Join cs args reply nowName nowJoined nowMsg).reply.Message
      = "Welcome, " ++ uniqueName cs args.RequestedName nowName ++ "!" ∧
    uniqueName cs args.RequestedName nowName
      ∈ (Join cs args reply nowName nowJoined nowMsg).cs.users ∧
    (Join cs args reply nowName nowJoined nowMsg).cs.users.lookup
        (uniqueName cs args.RequestedName nowName)
      = some { ID := uniqueName cs args.RequestedName nowName, LastSeen := cs.nextID - 1,
               Joined := nowJoined, Original := args.RequestedName } ∧
    (Join cs args reply nowName nowJoined nowMsg).cs.history = cs.history ++
      [{ ID := cs.nextID, Sender := "System",
         Content := "User " ++ uniqueName cs args.RequestedName nowName ++ " joined the chat",
         Time := nowMsg }] ∧
    (Join cs args reply nowName nowJoined nowMsg).cs.nextID = cs.nextID + 1 := by
  refine ⟨rfl, rfl, rfl, rfl, ?_, ?_, rfl, rfl⟩
  · rw [join_users]
    exact (AList.mem_insert _).mpr (Or.inl rfl)
  · rw [join_users]
    exact AList.lookup_insert _

/-! ## Leave -/

theorem leave_of_not_mem (cs : ChatService) (args : LeaveArgs) (reply : JoinReply) (now : Time)
    (h : args.ID ∉ cs.users) :
    Leave cs args reply now = { cs := cs, reply := reply, err := none } := by
  have hl := AList.lookup_eq_none.mpr h
  simp [Leave, hl]

theorem leave_of_mem (cs : ChatService) (args : LeaveArgs) (reply : JoinReply) (now : Time)
    (h : args.ID ∈ cs.users) :
    Leave cs args reply now =
      { cs := { cs with
                  users := cs.users.erase args.ID
                  nextID := cs.nextID + 1
                  history := cs.history ++
                    [{ ID := cs.nextID, Sender := "System",
                       Content := "User " ++ args.ID ++ " left the chat", Time := now }] }
        reply := { reply with Success := true, Message := "Left chat successfully" }
        err := none } := by
  obtain ⟨u, hu⟩ := Option.isSome_iff_exists.mp (AList.lookup_isSome.mpr h)
  simp [Leave, hu]

/-- After `Leave` the given ID is not joined, whether it was joined or not. -/
theorem leave_not_mem (cs : ChatService) (args : LeaveArgs) (reply : JoinReply) (now : Time) :
    args.ID ∉ (Leave cs args reply now).cs.users := by
  by_cases h : args.ID ∈ cs.users
  · rw [leave_of_mem cs args reply now h]
    intro hc
    exact (AList.mem_erase.mp hc).1 rfl
  · rw [leave_of_not_mem cs args reply now h]
    exact h

theorem reachable_chatLeft : Reachable chatLeft := Steps.tail reachable_chatA (Step.leave _ _ _ _)

theorem reachable_chatBOnly : Reachable chatBOnly :=
  Steps.tail reachable_chatJoined (Step.leave _ _ _ _)

/-- C11: `Leave` for a joined user ID removes that user and no other from the
registry, appends exactly one message (sender "System", the old `nextID`,
content "User <userID> left the chat"), increases `nextID` by one and reports
success: no error and `Success = true`. -/
theorem leave_removes_user_and_announces (cs : ChatService) (args : LeaveArgs)
    (reply : JoinReply) (now : Time) (h : args.ID ∈ cs.users) :
    (Leave cs args reply now).err = none ∧
    (Leave cs args reply now).reply.Success = true ∧
    args.ID ∉ (Leave cs args reply now).cs.users ∧
    (∀ k, k ∈ (Leave cs args reply now).cs.users ↔ k ≠ args.ID ∧ k ∈ cs.users) ∧
    (∀ k, k ≠ args.ID →
      (Leave cs args reply now).cs.users.lookup k = cs.users.lookup k) ∧
    (Leave cs args reply now).cs.history = cs.history ++
      [{ ID := cs.nextID, Sender := "System",
         Content := "User " ++ args.ID ++ " left the chat", Time := now }] ∧
    (Leave cs args reply now).cs.nextID = cs.nextID + 1 := by
  have hnot := leave_not_mem cs args reply now
  rw [leave_of_mem cs args reply now h] at hnot ⊢
  refine ⟨rfl, rfl, hnot, ?_, ?_, rfl, rfl⟩
  · intro k
    exact AList.mem_erase
  · intro k hk
    exact AList.lookup_erase_ne hk

/-- Witness of C11: `A` leaves after `Join("A")`, `Join("B")`; the record of
`B` stays and the notice gets the ID 3. -/
theorem leave_removes_user_and_announces_witness :
    "A" ∈ chatJoined.users ∧
    (Leave chatJoined ⟨"A"⟩ JoinReply.zero 40).err = none ∧
    (Leave chatJoined ⟨"A"⟩ JoinReply.zero 40).reply.Success = true ∧
    "A" ∉ (Leave chatJoined ⟨"A"⟩ JoinReply.zero 40).cs.users ∧
    (Leave chatJoined ⟨"A"⟩ JoinReply.zero 40).cs.users.lookup "B"
      = some { ID := "B", LastSeen := 1, Joined := 21, Original := "B" } ∧
    (Leave chatJoined ⟨"A"⟩ JoinReply.zero 40).cs.history = chatJoined.history ++
      [{ ID := 3, Sender := "System", Content := "User A left the chat", Time := 40 }] ∧
    (Leave chatJoined ⟨"A"⟩ JoinReply.zero 40).cs.nextID = 4 :=
  have h := leave_removes_user_and_announces chatJoined ⟨"A"⟩ JoinReply.zero 40 (by decide)
  ⟨by decide, h.1, h.2.1, h.2.2.1, by decide, h.2.2.2.2.2.1.trans (by decide), by decide⟩

/-- C12: `Leave` for an ID that is not joined changes nothing in the state.
Hence for a joined ID a second `Leave` right after the first yields the state
the first one produced, and over the two calls the history gains exactly one
departure notice. -/
theorem leave_twice_same_as_once (cs : ChatService) (args : LeaveArgs)
    (reply reply2 : JoinReply) (now now2 : Time) :
    (args.ID ∉ cs.users →
      (Leave cs args reply now).cs = cs ∧
      (Leave cs args reply now).cs.users = cs.users ∧
      (Leave cs args reply now).cs.history = cs.history ∧
      (Leave cs args reply now).cs.nextID = cs.nextID) ∧
    (args.ID ∈ cs.users →
      (Leave (Leave cs args reply now).cs args reply2 now2).cs = (Leave cs args reply now).cs ∧
      (Leave (Leave cs args reply now).cs args reply2 now2).cs.history = cs.history ++
        [{ ID := cs.nextID, Sender := "System",
           Content := "User " ++ args.ID ++ " left the chat", Time := now }]) := by
  constructor
  · intro h
    rw [leave_of_not_mem cs args reply now h]
    exact ⟨rfl, rfl, rfl, rfl⟩
  · intro h
    have hnot := leave_not_mem cs args reply now
    rw [leave_of_not_mem _ args reply2 now2 hnot]
    refine ⟨rfl, ?_⟩
    rw [leave_of_mem cs args reply now h]

/-- Witness of C12: after `Join("A")`, two calls `Leave("A")` leave the state
of the first call, with the single notice of ID 2 in the history; and `Leave`
for the unknown ID `"Z"` changes nothing. -/
theorem leave_twice_same_as_once_witness :
    "Z" ∉ chatA.users ∧
    (Leave chatA ⟨"Z"⟩ JoinReply.zero 40).cs = chatA ∧
    "A" ∈ chatA.users ∧
    (Leave (Leave chatA ⟨"A"⟩ JoinReply.zero 40).cs ⟨"A"⟩ JoinReply.zero 50).cs
      = (Leave chatA ⟨"A"⟩ JoinReply.zero 40).cs ∧
    (Leave (Leave chatA ⟨"A"⟩ JoinReply.zero 40).cs ⟨"A"⟩ JoinReply.zero 50).cs.history
      = [ { ID := 1, Sender := "System", Content := "User A joined the chat", Time := 12 },
          { ID := 2, Sender := "System", Content := "User A left the chat", Time := 40 } ] :=
  have hz := (leave_twice_same_as_once chatA ⟨"Z"⟩ JoinReply.zero JoinReply.zero 40 50).1
    (by decide)
  have ha := (leave_twice_same_as_once chatA ⟨"A"⟩ JoinReply.zero JoinReply.zero 40 50).2
    (by decide)
  ⟨by decide, hz.1, by decide, ha.1, ha.2.trans (by decide)⟩

/-- C13, the failing input: after `Join("A")` and `Leave("A")`, the second
`Leave("A")`, called with a freshly allocated reply, returns no error but
leaves the reply untouched, so its `Success` is `false`; the first call, on
the joined user, did set `Success = true`. -/
theorem leave_unknown_user_leaves_success_false :
    Reachable chatLeft ∧
    "A" ∈ chatA.users ∧
    (Leave chatA ⟨"A"⟩ JoinReply.zero 40).err = none ∧
    (Leave chatA ⟨"A"⟩ JoinReply.zero 40).reply.Success = true ∧
    "A" ∉ chatLeft.users ∧
    (Leave chatLeft ⟨"A"⟩ JoinReply.zero 50).err = none ∧
    (Leave chatLeft ⟨"A"⟩ JoinReply.zero 50).reply.Success = false ∧
    (Leave chatLeft ⟨"A"⟩ JoinReply.zero 50).reply = JoinReply.zero :=
  ⟨reachable_chatLeft, by decide, by decide, by decide, by decide, by decide, by decide,
    by decide⟩

/-! ## Left users, read-only polls and the append-only log -/

/-- A call that does not hand out the name `u` does not make `u` joined. -/
theorem stepAvoiding_not_mem {u : String} {a b : ChatService} (h : StepAvoiding u a b)
    (ha : u ∉ a.users) : u ∉ b.users := by
  cases h with
  | join args reply t1 t2 t3 hne =>
    rw [join_users]
    intro hc
    rcases (AList.mem_insert _).mp hc with hk | hk
    · exact hne hk.symm
    · exact ha hk
  | send args reply now =>
    by_cases hj : args.ID ∈ a.users
    · obtain ⟨v, hv⟩ := Option.isSome_iff_exists.mp (AList.lookup_isSome.mpr hj)
      rw [send_of_lookup a args reply now v hv]
      intro hc
      rcases (AList.mem_insert _).mp hc with hk | hk
      · exact ha (hk ▸ hj)
      · exact ha hk
    · rw [send_of_not_mem a args reply now hj]
      exact ha
  | getUpdates args reply =>
    by_cases hj : args.ID ∈ a.users
    · rw [getUpdates_of_mem a args reply hj]; exact ha
    · rw [getUpdates_of_not_mem a args reply hj]; exact ha
  | leave args reply now =>
    by_cases hj : args.ID ∈ a.users
    · rw [leave_of_mem a args reply now hj]
      intro hc
      exact ha (AList.mem_erase.mp hc).2
    · rw [leave_of_not_mem a args reply now hj]
      exact ha

theorem runAvoiding_not_mem {u : String} {a b : ChatService} (h : RunAvoiding u a b)
    (ha : u ∉ a.users) : u ∉ b.users := by
  induction h with
  | refl => exact ha
  | tail _ hs ih => exact stepAvoiding_not_mem hs ih

/-- C14: after `Leave(userID)`, and for as long as no `Join` is assigned that
name again, the ID is not joined: `Send` with it fails with "user not found"
for every content and `GetUpdates` with it fails with "unknown user" for
every cursor, and neither call changes the state. -/
theorem left_user_is_rejected (cs later : ChatService) (args : LeaveArgs) (reply : JoinReply)
    (now : Time) (hrun : RunAvoiding args.ID (Leave cs args reply now).cs later) :
    args.ID ∉ later.users ∧
    (∀ (content : String) (sendReply : SendReply) (t : Time),
      (Send later ⟨args.ID, content⟩ sendReply t).err = some "user not found" ∧
      (Send later ⟨args.ID, content⟩ sendReply t).cs = later) ∧
    (∀ (k : Int) (updateReply : UpdateReply),
      (GetUpdates later ⟨args.ID, k⟩ updateReply).err = some "unknown user" ∧
      (GetUpdates later ⟨args.ID, k⟩ updateReply).cs = later) := by
  have hnot : args.ID ∉ later.users := runAvoiding_not_mem hrun (leave_not_mem cs args reply now)
  refine ⟨hnot, ?_, ?_⟩
  · intro content sendReply t
    rw [send_of_not_mem later ⟨args.ID, content⟩ sendReply t hnot]
    exact ⟨rfl, rfl⟩
  · intro k updateReply
    rw [getUpdates_of_not_mem later ⟨args.ID, k⟩ updateReply hnot]
    exact ⟨rfl, rfl⟩

/-- Witness of C14, the scenario of the claim: `Join("A")`, `Leave("A")`, then
`Send("A", "hi")` fails with "user not found"; it still fails after a
further `Join("B")`. -/
theorem left_user_is_rejected_witness :
    RunAvoiding "A" (Leave chatA ⟨"A"⟩ JoinReply.zero 40).cs chatLeft ∧
    (Send chatLeft ⟨"A", "hi"⟩ SendReply.zero 50).err = some "user not found" ∧
    (GetUpdates chatLeft ⟨"A", 0⟩ UpdateReply.zero).err = some "unknown user" ∧
    RunAvoiding "A" (Leave chatA ⟨"A"⟩ JoinReply.zero 40).cs
      (Join chatLeft ⟨"B"⟩ JoinReply.zero 50 51 52).cs ∧
    (Send (Join chatLeft ⟨"B"⟩ JoinReply.zero 50 51 52).cs ⟨"A", "hi"⟩ SendReply.zero 60).err
      = some "user not found" :=
  have h := left_user_is_rejected chatA chatLeft ⟨"A"⟩ JoinReply.zero 40 (RunAvoiding.refl _)
  have hB : RunAvoiding "A" (Leave chatA ⟨"A"⟩ JoinReply.zero 40).cs
      (Join chatLeft ⟨"B"⟩ JoinReply.zero 50 51 52).cs :=
    RunAvoiding.tail (RunAvoiding.refl _) (StepAvoiding.join _ _ _ _ _ _ (by decide))
  have h2 := left_user_is_rejected chatA _ ⟨"A"⟩ JoinReply.zero 40 hB
  ⟨RunAvoiding.refl _, (h.2.1 "hi" SendReply.zero 50).1, (h.2.2 0 UpdateReply.zero).1, hB,
    (h2.2.1 "hi" SendReply.zero 60).1⟩

/-- C15: `GetUpdates` fails with "unknown user" exactly when the given ID is
not joined, succeeds exactly when it is joined, and in both cases returns the
state it was given: users, history and `nextID` are unchanged. -/
theorem getUpdates_fails_iff_unknown_and_reads_only (cs : ChatService) (args : UpdateArgs)
    (reply : UpdateReply) :
    ((GetUpdates cs args reply).err = some "unknown user" ↔ args.ID ∉ cs.users) ∧
    ((GetUpdates cs args reply).err = none ↔ args.ID ∈ cs.users) ∧
    (GetUpdates cs args reply).cs = cs ∧
    (GetUpdates cs args reply).cs.users = cs.users ∧
    (GetUpdates cs args reply).cs.history = cs.history ∧
    (GetUpdates cs args reply).cs.nextID = cs.nextID := by
  by_cases h : args.ID ∈ cs.users
  · rw [getUpdates_of_mem cs args reply h]
    simp [h]
  · rw [getUpdates_of_not_mem cs args reply h]
    simp [h]

/-- Witness of C15: after `Join("A")`, `Join("B")`, `Leave("A")` a poll by `A`
fails with "unknown user", a poll by `B` succeeds, and both return the state
unchanged. -/
theorem getUpdates_fails_iff_unknown_and_reads_only_witness :
    "A" ∉ chatBOnly.users ∧
    (GetUpdates chatBOnly ⟨"A", 0⟩ UpdateReply.zero).err = some "unknown user" ∧
    (GetUpdates chatBOnly ⟨"A", 0⟩ UpdateReply.zero).cs = chatBOnly ∧
    "B" ∈ chatBOnly.users ∧
    (GetUpdates chatBOnly ⟨"B", 0⟩ UpdateReply.zero).err = none ∧
    (GetUpdates chatBOnly ⟨"B", 0⟩ UpdateReply.zero).cs = chatBOnly :=
  have hA := getUpdates_fails_iff_unknown_and_reads_only chatBOnly ⟨"A", 0⟩ UpdateReply.zero
  have hB := getUpdates_fails_iff_unknown_and_reads_only chatBOnly ⟨"B", 0⟩ UpdateReply.zero
  ⟨by decide, hA.1.mpr (by decide), hA.2.2.1, by decide, hB.2.1.mpr (by decide), hB.2.2.1⟩

/-- C16: every call of `Join`, `Send`, `GetUpdates` or `Leave` keeps the
history it found as a prefix of the history it leaves and appends at most one
message; along any sequence of calls the old history stays a prefix. -/
theorem history_is_append_only (a b : ChatService) :
    (Step a b →
      a.history <+: b.history ∧
      (b.history = a.history ∨ ∃ m : Message, b.history = a.history ++ [m]) ∧
      b.history.length ≤ a.history.length + 1) ∧
    (Steps a b → a.history <+: b.history) := by
  constructor
  · intro h
    rcases step_log_effect h with ⟨hh, _⟩ | ⟨m, hh, _, _⟩
    · rw [hh]
      exact ⟨List.prefix_refl _, Or.inl rfl, Nat.le_succ _⟩
    · rw [hh]
      exact ⟨List.prefix_append _ _, Or.inr ⟨m, rfl⟩, by simp⟩
  · intro h
    obtain ⟨added, hadd⟩ := steps_log_prefix h
    exact ⟨added, hadd.symm⟩

/-- Witness of C16: the call `Send("A", "hi")` after `Join("A")`, `Join("B")`,
and the two calls from there to `chatAB2`. -/
theorem history_is_append_only_witness :
    Step chatJoined chatAB ∧
    chatJoined.history <+: chatAB.history ∧
    chatAB.history.length ≤ chatJoined.history.length + 1 ∧
    Steps chatJoined chatAB2 ∧
    chatJoined.history <+: chatAB2.history :=
  have hstep : Step chatJoined chatAB := Step.send _ _ _ _
  have hsteps : Steps chatJoined chatAB2 :=
    Steps.tail (Steps.tail (Steps.refl _) hstep) (Step.send _ _ _ _)
  have h1 := (history_is_append_only chatJoined chatAB).1 hstep
  have h2 := (history_is_append_only chatJoined chatAB2).2 hsteps
  ⟨hstep, h1.1, h1.2.2, hsteps, h2⟩

/-! ## Polling at the end of the log -/

theorem filter_selected_eq_nil {cs : ChatService} {U : String} {c : Int}
    (h : ∀ m ∈ cs.history, m.ID ≤ c) : cs.history.filter (selected ⟨U, c⟩) = [] := by
  rw [List.filter_eq_nil_iff]
  intro m hm hsel
  have h1 := ((selected_iff U c m).mp hsel).1
  have h2 := h m hm
  omega

/-- C17: in a reachable state, for a joined user `A` and a cursor `c` that is
at least every message ID of the history, `GetUpdates(A, c)` returns the empty
list and the cursor `c`; in particular this is so right after `A` has sent a
message, for every cursor from the ID of that message on. -/
theorem getUpdates_at_highest_id_returns_nothing (cs : ChatService) (A : String)
    (reply : UpdateReply) (hr : Reachable cs) (hA : A ∈ cs.users) :
    (∀ c : Int, (∀ m ∈ cs.history, m.ID ≤ c) →
      (GetUpdates cs ⟨A, c⟩ reply).err = none ∧
      (GetUpdates cs ⟨A, c⟩ reply).reply.Messages = [] ∧
      (GetUpdates cs ⟨A, c⟩ reply).reply.NewMsgID = c) ∧
    (∀ (content : String) (sendReply : SendReply) (now : Time) (c : Int), cs.nextID ≤ c →
      (Send cs ⟨A, content⟩ sendReply now).cs.history = cs.history ++
        [{ ID := cs.nextID, Sender := A, Content := content, Time := now }] ∧
      (GetUpdates (Send cs ⟨A, content⟩ sendReply now).cs ⟨A, c⟩ reply).err = none ∧
      (GetUpdates (Send cs ⟨A, content⟩ sendReply now).cs ⟨A, c⟩ reply).reply.Messages = [] ∧
      (GetUpdates (Send cs ⟨A, content⟩ sendReply now).cs ⟨A, c⟩ reply).reply.NewMsgID = c) := by
  constructor
  · intro c hc
    rw [getUpdates_of_mem cs ⟨A, c⟩ reply hA]
    simp [filter_selected_eq_nil hc, lastIDOr]
  · intro content sendReply now c hc
    obtain ⟨u, hu⟩ := Option.isSome_iff_exists.mp (AList.lookup_isSome.mpr hA)
    have hsend := send_of_lookup cs ⟨A, content⟩ sendReply now u hu
    have hA2 : A ∈ (Send cs ⟨A, content⟩ sendReply now).cs.users := by
      rw [hsend]
      exact (AList.mem_insert _).mpr (Or.inl rfl)
    have hn2 : Numbered (Send cs ⟨A, content⟩ sendReply now).cs :=
      step_numbered (Step.send cs _ _ _) (reachable_numbered hr)
    have hnext : (Send cs ⟨A, content⟩ sendReply now).cs.nextID = cs.nextID + 1 := by
      rw [hsend]
    have hall : ∀ m ∈ (Send cs ⟨A, content⟩ sendReply now).cs.history, m.ID ≤ c := by
      intro m hm
      have := (numbered_id_bounds hn2 m hm).2
      omega
    rw [getUpdates_of_mem _ ⟨A, c⟩ reply hA2]
    refine ⟨by rw [hsend], rfl, ?_, ?_⟩
    · exact filter_selected_eq_nil hall
    · simp [filter_selected_eq_nil hall, lastIDOr]

/-- Witness of C17, the scenario of the claim: `A` sends "hi" after
`Join("A")`, `Join("B")` and polls with the cursor 3, the ID of that message. -/
theorem getUpdates_at_highest_id_returns_nothing_witness :
    Reachable chatJoined ∧ "A" ∈ chatJoined.users ∧ chatJoined.nextID = 3 ∧
    (GetUpdates (Send chatJoined ⟨"A", "hi"⟩ SendReply.zero 30).cs ⟨"A", 3⟩
        UpdateReply.zero).reply.Messages = [] ∧
    (GetUpdates (Send chatJoined ⟨"A", "hi"⟩ SendReply.zero 30).cs ⟨"A", 3⟩
        UpdateReply.zero).reply.NewMsgID = 3 :=
  have h := (getUpdates_at_highest_id_returns_nothing chatJoined "A" UpdateReply.zero
    reachable_chatJoined (by decide)).2 "hi" SendReply.zero 30 3 (by decide)
  ⟨reachable_chatJoined, by decide, by decide, h.2.2.1, h.2.2.2⟩

/-- C20: for a joined user and any input cursor `c` the returned cursor is
never below `c`: it is `c` when the returned list is empty, and otherwise the
ID of the last returned message, which is greater than `c`; in a reachable
state that ID is the largest ID of the returned list. -/
theorem getUpdates_cursor_never_moves_back (cs : ChatService) (U : String) (c : Int)
    (reply : UpdateReply) (hU : U ∈ cs.users) :
    c ≤ (GetUpdates cs ⟨U, c⟩ reply).reply.NewMsgID ∧
    ((GetUpdates cs ⟨U, c⟩ reply).reply.Messages = [] →
      (GetUpdates cs ⟨U, c⟩ reply).reply.NewMsgID = c) ∧
    (∀ last : Message, (GetUpdates cs ⟨U, c⟩ reply).reply.Messages.getLast? = some last →
      (GetUpdates cs ⟨U, c⟩ reply).reply.NewMsgID = last.ID ∧ c < last.ID) ∧
    (Reachable cs → ∀ m ∈ (GetUpdates cs ⟨U, c⟩ reply).reply.Messages,
      m.ID ≤ (GetUpdates cs ⟨U, c⟩ reply).reply.NewMsgID) := by
  rw [getUpdates_of_mem cs ⟨U, c⟩ reply hU]
  have hlast : ∀ last : Message,
      (cs.history.filter (selected ⟨U, c⟩)).getLast? = some last →
      lastIDOr (cs.history.filter (selected ⟨U, c⟩)) c = last.ID ∧ c < last.ID := by
    intro last hl
    have hnn : cs.history.filter (selected ⟨U, c⟩) ≠ [] := by
      intro hnil
      rw [hnil] at hl
      cases hl
    rw [List.getLast?_eq_getLast _ hnn, Option.some.injEq] at hl
    have hin := List.mem_filter.mp (List.getLast_mem hnn)
    rw [hl] at hin
    exact ⟨by rw [lastIDOr_of_ne_nil _ c hnn, hl], ((selected_iff U c last).mp hin.2).1⟩
  refine ⟨?_, ?_, hlast, ?_⟩
  · show c ≤ lastIDOr (cs.history.filter (selected ⟨U, c⟩)) c
    cases hl : (cs.history.filter (selected ⟨U, c⟩)).getLast? with
    | none =>
      rw [List.getLast?_eq_none_iff.mp hl]
      exact le_refl _
    | some last =>
      have := hlast last hl
      omega
  · intro hnil
    show lastIDOr (cs.history.filter (selected ⟨U, c⟩)) c = c
    have hnil2 : cs.history.filter (selected ⟨U, c⟩) = [] := hnil
    rw [hnil2]
    rfl
  · intro hr m hm
    have hm2 : m ∈ cs.history.filter (selected ⟨U, c⟩) := hm
    have hnn : cs.history.filter (selected ⟨U, c⟩) ≠ [] := List.ne_nil_of_mem hm2
    have hpw : (cs.history.filter (selected ⟨U, c⟩)).Pairwise (fun a b => a.ID < b.ID) :=
      (numbered_pairwise (reachable_numbered hr)).filter _
    show m.ID ≤ lastIDOr (cs.history.filter (selected ⟨U, c⟩)) c
    rw [lastIDOr_of_ne_nil _ c hnn]
    exact le_getLast_of_pairwise _ hpw hnn m hm2

/-- Witness of C20: `B` polls at cursor 1 after `Join("A")`, `Join("B")`,
`Send("A", "hi")`: the returned list ends with the message of ID 3 and the
new cursor is 3. -/
theorem getUpdates_cursor_never_moves_back_witness :
    "B" ∈ chatAB.users ∧
    (1 : Int) ≤ (GetUpdates chatAB ⟨"B", 1⟩ UpdateReply.zero).reply.NewMsgID ∧
    (GetUpdates chatAB ⟨"B", 1⟩ UpdateReply.zero).reply.Messages.getLast?
      = some { ID := 3, Sender := "A", Content := "hi", Time := 30 } ∧
    (GetUpdates chatAB ⟨"B", 1⟩ UpdateReply.zero).reply.NewMsgID = 3 ∧
    (∀ m ∈ (GetUpdates chatAB ⟨"B", 1⟩ UpdateReply.zero).reply.Messages,
      m.ID ≤ (GetUpdates chatAB ⟨"B", 1⟩ UpdateReply.zero).reply.NewMsgID) :=
  have h := getUpdates_cursor_never_moves_back chatAB "B" 1 UpdateReply.zero (by decide)
  ⟨by decide, h.1, by decide,
    (h.2.2.1 { ID := 3, Sender := "A", Content := "hi", Time := 30 } (by decide)).1,
    h.2.2.2 reachable_chatAB⟩

/-! ## The sender "System" -/

theorem reachable_chatSystem : Reachable chatSystem :=
  Steps.tail (Steps.refl _) (Step.join _ _ _ _ _ _)

theorem reachable_chatSystemSent : Reachable chatSystemSent :=
  Steps.tail reachable_chatSystem (Step.send _ _ _ _)

/-- Counterexample to C18 as stated: `Join("System")` from the initial state is
assigned the name `"System"`, so a joined user has that ID, and the message
that user then submits through `Send` is stored with sender "System". -/
theorem system_name_is_reserved_counterexample :
    (Join NewChatService ⟨"System"⟩ JoinReply.zero 10 11 12).reply.AssignedName = "System" ∧
    Reachable chatSystem ∧ "System" ∈ chatSystem.users ∧
    Reachable chatSystemSent ∧ "System" ∈ chatSystemSent.users ∧
    (Send chatSystem ⟨"System", "hello"⟩ SendReply.zero 30).err = none ∧
    (Send chatSystem ⟨"System", "hello"⟩ SendReply.zero 30).cs.history = chatSystem.history ++
      [{ ID := 2, Sender := "System", Content := "hello", Time := 30 }] ∧
    (∃ m ∈ chatSystemSent.history, m.Sender = "System" ∧ m.Content = "hello") :=
  ⟨by decide, reachable_chatSystem, by decide, reachable_chatSystemSent, by decide, by decide,
    by decide, by decide⟩

/-- The invariant of traced runs that avoid the name `u` as an assigned name,
for `u = "System"`: the user is not joined, and a message has sender "System"
exactly when a notice stands at its place in the list of origins. -/
theorem traced_system_invariant {cs : ChatService} {os : List Origin}
    (h : Traced "System" cs os) :
    Reachable cs ∧ "System" ∉ cs.users ∧
    cs.history.map (fun m => decide (m.Sender = "System"))
      = os.map (fun o => decide (o = Origin.notice)) := by
  induction h with
  | init => exact ⟨Steps.refl _, by decide, rfl⟩
  | join args reply t1 t2 t3 _ hne ih =>
    obtain ⟨hr, hnot, hmap⟩ := ih
    refine ⟨Steps.tail hr (Step.join _ _ _ _ _ _), ?_, ?_⟩
    · rw [join_users]
      intro hc
      rcases (AList.mem_insert _).mp hc with hk | hk
      · exact hne hk.symm
      · exact hnot hk
    · show List.map _ (_ ++ [_]) = _
      rw [List.map_append, List.map_append, hmap]
      simp
  | @sendJoined s os args reply now _ hj ih =>
    obtain ⟨hr, hnot, hmap⟩ := ih
    obtain ⟨v, hv⟩ := Option.isSome_iff_exists.mp (AList.lookup_isSome.mpr hj)
    have hne : args.ID ≠ "System" := fun hc => hnot (hc ▸ hj)
    refine ⟨Steps.tail hr (Step.send _ _ _ _), ?_, ?_⟩
    · rw [send_of_lookup s args reply now v hv]
      intro hc
      rcases (AList.mem_insert _).mp hc with hk | hk
      · exact hne hk.symm
      · exact hnot hk
    · rw [send_of_lookup s args reply now v hv]
      show List.map _ (_ ++ [_]) = _
      rw [List.map_append, List.map_append, hmap]
      simp [hne]
  | @sendUnknown s os args reply now _ hj ih =>
    obtain ⟨hr, hnot, hmap⟩ := ih
    refine ⟨Steps.tail hr (Step.send _ _ _ _), ?_, ?_⟩
    · rw [send_of_not_mem s args reply now hj]; exact hnot
    · rw [send_of_not_mem s args reply now hj]; exact hmap
  | @getUpdates s os args reply _ ih =>
    obtain ⟨hr, hnot, hmap⟩ := ih
    have hcs : (GetUpdates s args reply).cs = s := by
      by_cases hj : args.ID ∈ s.users
      · rw [getUpdates_of_mem s args reply hj]
      · rw [getUpdates_of_not_mem s args reply hj]
    refine ⟨Steps.tail hr (Step.getUpdates _ _ _), ?_, ?_⟩
    · rw [hcs]; exact hnot
    · rw [hcs]; exact hmap
  | @leaveJoined s os args reply now _ hj ih =>
    obtain ⟨hr, hnot, hmap⟩ := ih
    refine ⟨Steps.tail hr (Step.leave _ _ _ _), ?_, ?_⟩
    · rw [leave_of_mem s args reply now hj]
      intro hc
      exact hnot (AList.mem_erase.mp hc).2
    · rw [leave_of_mem s args reply now hj]
      show List.map _ (_ ++ [_]) = _
      rw [List.map_append, List.map_append, hmap]
      simp
  | @leaveUnknown s os args reply now _ hj ih =>
    obtain ⟨hr, hnot, hmap⟩ := ih
    refine ⟨Steps.tail hr (Step.leave _ _ _ _), ?_, ?_⟩
    · rw [leave_of_not_mem s args reply now hj]; exact hnot
    · rw [leave_of_not_mem s args reply now hj]; exact hmap

/-- C18 (amended): the name "System" is not reserved, `Join` assigns it like
any other name.  In every state reached from `NewChatService` by calls among
which no `Join` was assigned the name "System", no joined user has the ID
"System", every message with sender "System" was appended by `Join` or `Leave`
(a service-generated notice) and every other message was appended by `Send`. -/
theorem system_sender_marks_notices_while_name_unassigned (cs : ChatService)
    (os : List Origin) (h : Traced "System" cs os) :
    Reachable cs ∧ "System" ∉ cs.users ∧ os.length = cs.history.length ∧
    (∀ (i : Nat) (m : Message), cs.history[i]? = some m →
      (m.Sender = "System" → os[i]? = some Origin.notice) ∧
      (m.Sender ≠ "System" → os[i]? = some Origin.sent)) := by
  obtain ⟨hr, hnot, hmap⟩ := traced_system_invariant h
  refine ⟨hr, hnot, ?_, ?_⟩
  · have := congrArg List.length hmap
    simpa using this.symm
  · intro i m hm
    have hi := congrArg (fun l => l[i]?) hmap
    simp only [List.getElem?_map, hm, Option.map_some'] at hi
    cases ho : os[i]? with
    | none => rw [ho] at hi; cases hi
    | some o =>
      rw [ho, Option.map_some', Option.some.injEq] at hi
      cases o with
      | notice =>
        refine ⟨fun _ => rfl, fun hne => ?_⟩
        simp [hne] at hi
      | sent =>
        refine ⟨fun heq => ?_, fun _ => rfl⟩
        simp [heq] at hi

/-- Witness of C18 (amended): after `Join("A")`, `Join("B")`, `Send("A", "hi")`
the two messages with sender "System" are the notices and the third message,
with sender `"A"`, was sent. -/
theorem system_sender_marks_notices_while_name_unassigned_witness :
    Traced "System" chatAB [Origin.notice, Origin.notice, Origin.sent] ∧
    "System" ∉ chatAB.users ∧
    chatAB.history.map Message.Sender = ["System", "System", "A"] ∧
    (∀ (i : Nat) (m : Message), chatAB.history[i]? = some m →
      (m.Sender = "System" → [Origin.notice, Origin.notice, Origin.sent][i]?
          = some Origin.notice) ∧
      (m.Sender ≠ "System" → [Origin.notice, Origin.notice, Origin.sent][i]?
          = some Origin.sent)) :=
  have ht : Traced "System" chatAB [Origin.notice, Origin.notice, Origin.sent] :=
    Traced.sendJoined ⟨"A", "hi"⟩ SendReply.zero 30
      (Traced.join ⟨"B"⟩ JoinReply.zero 20 21 22
        (Traced.join ⟨"A"⟩ JoinReply.zero 10 11 12 Traced.init (by decide)) (by decide))
      (by decide)
  have h := system_sender_marks_notices_while_name_unassigned chatAB _ ht
  ⟨ht, h.2.1, by decide, h.2.2.2⟩

end GoChatRPC
